import Mathlib

/-!
Verification development for the payment-proxy risk-scoring service.

The definitions below are a shallow embedding of the TypeScript sources:
`fraud-detector.service.ts` (the complete 15-rule variant), the routing
and amount-enrichment logic of `payment-processor.service.ts`, and the
`InMemoryTransactionLogger`.  JavaScript numbers are modelled as exact
rationals, `Date` values as integers (epoch milliseconds), optional or
`undefined` fields as `Option`, and string operations are defined over
the underlying character lists.
-/

namespace PaymentProxy

/-! ## String helpers modelling the JavaScript string operations used -/

/-- JS `String.prototype.toLowerCase`, restricted to the ASCII mapping
used by the source's domain and category strings. -/
def jsToLower (s : String) : String := ⟨s.data.map Char.toLower⟩

/-- JS `String.prototype.includes`: substring test. -/
def jsIncludes (s sub : String) : Bool := decide (sub.data <:+: s.data)

/-- JS `String.prototype.endsWith`: suffix test. -/
def jsEndsWith (s suffix : String) : Bool := decide (suffix.data <:+ s.data)

/-! ## Data model (`src/types/fraud.ts`, `src/types/api.ts`) -/

/-- `TransactionAmountData` of `src/types/fraud.ts`: the amount context
attached to a fraud-analysis input.  `creditCardLimit?: number` becomes
an `Option`. -/
structure TransactionAmountData where
  amount : ℚ
  currency : String
  previousAmounts : List ℚ
  userAverageAmount : ℚ
  userStandardDeviation : ℚ
  merchantCategory : String
  isFirstTimeTransaction : Bool
  creditCardLimit : Option ℚ
  reportingThreshold : ℚ
deriving DecidableEq

/-- `FraudAnalysisData` of `src/types/fraud.ts`. -/
structure FraudAnalysisData where
  amount : ℚ
  currency : String
  email : String
  domain : String
  timestamp : ℤ
  transactionAmount : Option TransactionAmountData
deriving DecidableEq

/-- `FraudRule` of `src/types/fraud.ts`: a named, weighted predicate. -/
structure FraudRule where
  name : String
  weight : ℚ
  condition : FraudAnalysisData → Bool
  description : String

/-- The scalar part of `FraudConfig` (threshold, large-amount threshold,
suspicious domain suffixes); the rule list is always
`getDefaultRules` in the service constructor. -/
structure FraudConfigBase where
  threshold : ℚ
  largeAmountThreshold : ℚ
  suspiciousDomains : List String

/-- `FraudAnalysisResult` of `src/types/fraud.ts`. -/
structure FraudAnalysisResult where
  riskScore : ℚ
  triggeredRules : List String
  explanation : String
  isHighRisk : Bool
deriving DecidableEq

/-! ## Rule predicates (`fraud-detector.service.ts`) -/

/-- `isSuspiciousDomain`: some configured suffix matches the domain,
case-insensitively. -/
def isSuspiciousDomain (cfg : FraudConfigBase) (domain : String) : Bool :=
  cfg.suspiciousDomains.any fun sd => jsEndsWith (jsToLower domain) (jsToLower sd)

/-- Regex `/^\d+@/`: one or more leading digits immediately followed by `@`. -/
def matchLeadingDigitsAt (email : String) : Bool :=
  let l := email.data
  (!(l.takeWhile Char.isDigit).isEmpty) &&
    ((l.dropWhile Char.isDigit).head? == some '@')

/-- Four consecutive digit characters occur somewhere in the list
(the `\d{4,}` part of `/@.*\d{4,}/`). -/
def hasFourConsecDigits : List Char → Bool
  | c1 :: c2 :: c3 :: c4 :: rest =>
    (c1.isDigit && c2.isDigit && c3.isDigit && c4.isDigit) ||
      hasFourConsecDigits (c2 :: c3 :: c4 :: rest)
  | _ => false

/-- Regex `/@.*\d{4,}/`: an `@` with four consecutive digits somewhere
after it; equivalently, the part after the first `@` contains such a run. -/
def matchAtThenFourDigits (email : String) : Bool :=
  match email.data.dropWhile (fun c => c != '@') with
  | _ :: rest => hasFourConsecDigits rest
  | [] => false

/-- The character class `[a-zA-Z0-9@._-]` of the third pattern. -/
def isAllowedEmailChar (c : Char) : Bool :=
  c.isAlpha || c.isDigit || c == '@' || c == '.' || c == '_' || c == '-'

/-- Regex `/[^a-zA-Z0-9@._-]/`: some character outside the allowed class. -/
def matchSpecialChar (email : String) : Bool :=
  email.data.any fun c => !isAllowedEmailChar c

/-- Regex `/\.{2,}/`: two consecutive dots occur. -/
def matchDoubleDot : List Char → Bool
  | c1 :: c2 :: rest => (c1 == '.' && c2 == '.') || matchDoubleDot (c2 :: rest)
  | _ => false

/-- `hasSuspiciousEmailPattern`: any of the four regex patterns matches. -/
def hasSuspiciousEmailPattern (email : String) : Bool :=
  matchLeadingDigitsAt email || matchAtThenFourDigits email ||
    matchSpecialChar email || matchDoubleDot email.data

/-- `isRoundNumberAmount`: membership in the fixed denomination list. -/
def isRoundNumberAmount (amount : ℚ) : Bool :=
  decide (amount ∈ ([100, 500, 1000, 2000, 5000, 10000, 20000, 50000, 100000] : List ℚ))

/-- Count adjacent pairs `(l[i-1], l[i])` satisfying `p`, as the source's
`for (let i = 1; ...)` loops do. -/
def countAdjacent (p : ℚ → ℚ → Bool) : List ℚ → ℕ
  | a :: b :: rest => (if p a b then 1 else 0) + countAdjacent p (b :: rest)
  | _ => 0

/-- JS `array.slice(-5)`: the last five elements (the whole array when
shorter). -/
def lastFive (l : List ℚ) : List ℚ := l.drop (l.length - 5)

/-- `hasGradualAmountIncrease`. -/
def hasGradualAmountIncrease (data : FraudAnalysisData) : Bool :=
  match data.transactionAmount with
  | none => false
  | some ctx =>
    if ctx.previousAmounts.length < 3 then false
    else
      let amounts := lastFive ctx.previousAmounts
      let increasingCount := countAdjacent (fun previous current => decide (previous < current)) amounts
      match amounts.getLast? with
      | some lastAmount => decide (3 ≤ increasingCount) && decide (lastAmount < data.amount)
      | none => false

/-- `isUnderReportingThreshold`.  The JS `?.reportingThreshold || 10000`
falls back to 10000 when the context is absent or the stored threshold
is `0` (falsy). -/
def isUnderReportingThreshold (data : FraudAnalysisData) : Bool :=
  let reportingThreshold : ℚ :=
    match data.transactionAmount with
    | some ctx => if ctx.reportingThreshold = 0 then 10000 else ctx.reportingThreshold
    | none => 10000
  decide (reportingThreshold - reportingThreshold * 0.01 ≤ data.amount) &&
    decide (data.amount < reportingThreshold)

/-- `isMicroTransactionFollowedByLarge`: requires at least two history
entries, then compares the last entry and the current amount. -/
def isMicroTransactionFollowedByLarge (data : FraudAnalysisData) : Bool :=
  match data.transactionAmount with
  | none => false
  | some ctx =>
    if ctx.previousAmounts.length < 2 then false
    else
      match ctx.previousAmounts.getLast? with
      | some lastAmount => decide (lastAmount < 10) && decide (100 < data.amount)
      | none => false

/-- `exceedsHistoricalAverage`. -/
def exceedsHistoricalAverage (data : FraudAnalysisData) : Bool :=
  match data.transactionAmount with
  | none => false
  | some ctx =>
    decide (ctx.userAverageAmount + 3 * ctx.userStandardDeviation < data.amount)

/-- `isFirstTimeHighValueTransaction`. -/
def isFirstTimeHighValueTransaction (data : FraudAnalysisData) : Bool :=
  match data.transactionAmount with
  | none => false
  | some ctx => ctx.isFirstTimeTransaction && decide (500 < data.amount)

/-- The `categoryRanges` table of `isInconsistentWithMerchantCategory`. -/
def categoryRanges : List (String × ℚ × ℚ) :=
  [("grocery", 10, 200), ("gas", 20, 100), ("restaurant", 5, 150),
   ("retail", 10, 1000), ("electronics", 50, 5000), ("jewelry", 100, 10000),
   ("travel", 100, 5000), ("utilities", 20, 500), ("subscription", 5, 100),
   ("digital_goods", 1, 200)]

/-- `isInconsistentWithMerchantCategory`. -/
def isInconsistentWithMerchantCategory (data : FraudAnalysisData) : Bool :=
  match data.transactionAmount with
  | none => false
  | some ctx =>
    match categoryRanges.lookup (jsToLower ctx.merchantCategory) with
    | none => false
    | some range => decide (data.amount < range.1) || decide (range.2 < data.amount)

/-- `isMaximumCreditLimitTransaction`: the JS guard
`!data.transactionAmount?.creditCardLimit` rejects an absent and a zero
(falsy) limit. -/
def isMaximumCreditLimitTransaction (data : FraudAnalysisData) : Bool :=
  match data.transactionAmount with
  | none => false
  | some ctx =>
    match ctx.creditCardLimit with
    | none => false
    | some creditCardLimit =>
      if creditCardLimit = 0 then false
      else decide (creditCardLimit * 0.99 ≤ data.amount)

/-- JS truncation toward zero, as used by the `%` remainder operator. -/
def jsTrunc (q : ℚ) : ℤ := if 0 ≤ q then ⌊q⌋ else ⌈q⌉

/-- JS `amount % 1`: remainder with the sign of the dividend. -/
def jsMod1 (q : ℚ) : ℚ := q - jsTrunc q

/-- JS `Math.round`: round half toward positive infinity. -/
def jsRound (q : ℚ) : ℤ := ⌊q + 1 / 2⌋

/-- `hasOddCentPatterns`: the rounded cent component is 0, 1 or 99. -/
def hasOddCentPatterns (amount : ℚ) : Bool :=
  decide (jsRound (jsMod1 amount * 100) ∈ ([0, 1, 99] : List ℤ))

/-- `hasSequentialAmountTesting`. -/
def hasSequentialAmountTesting (data : FraudAnalysisData) : Bool :=
  match data.transactionAmount with
  | none => false
  | some ctx =>
    if ctx.previousAmounts.length < 3 then false
    else
      let amounts := lastFive ctx.previousAmounts
      let sequentialCount := countAdjacent (fun previous current => decide (|current - previous| ≤ 1)) amounts
      match amounts.getLast? with
      | some lastAmount => decide (2 ≤ sequentialCount) && decide (|data.amount - lastAmount| ≤ 1)
      | none => false

/-! ## The default rule set and `analyzeRisk` -/

/-- `getDefaultRules` of the complete variant of
`fraud-detector.service.ts`: fifteen weighted rules in registration
order. -/
def getDefaultRules (cfg : FraudConfigBase) : List FraudRule :=
  [⟨"large_amount", 0.3, fun d => decide (cfg.largeAmountThreshold < d.amount),
    "Transaction amount exceeds large amount threshold"⟩,
   ⟨"suspicious_domain", 0.4, fun d => isSuspiciousDomain cfg d.domain,
    "Email domain is flagged as suspicious"⟩,
   ⟨"test_domain", 0.2, fun d => jsIncludes d.domain "test" || jsIncludes d.domain "example",
    "Email domain contains test or example keywords"⟩,
   ⟨"high_value_currency", 0.1, fun d => decide (1000 < d.amount),
    "High value transaction"⟩,
   ⟨"suspicious_email_pattern", 0.2, fun d => hasSuspiciousEmailPattern d.email,
    "Email address has suspicious patterns"⟩,
   ⟨"round_number_amount", 0.15, fun d => isRoundNumberAmount d.amount,
    "Transaction amount is a round number (suspicious pattern)"⟩,
   ⟨"gradual_amount_increase", 0.25, hasGradualAmountIncrease,
    "Multiple transactions with gradual amount increases (testing limits)"⟩,
   ⟨"under_reporting_threshold", 0.3, isUnderReportingThreshold,
    "Amount just under reporting threshold (suspicious)"⟩,
   ⟨"micro_to_large_transaction", 0.2, isMicroTransactionFollowedByLarge,
    "Micro-transaction followed by large amount"⟩,
   ⟨"exceeds_historical_average", 0.35, exceedsHistoricalAverage,
    "Amount exceeds user historical average by 3+ standard deviations"⟩,
   ⟨"first_time_high_value", 0.25, isFirstTimeHighValueTransaction,
    "First-time transaction over $500"⟩,
   ⟨"inconsistent_merchant_category", 0.2, isInconsistentWithMerchantCategory,
    "Amount inconsistent with merchant category"⟩,
   ⟨"maximum_credit_limit", 0.4, isMaximumCreditLimitTransaction,
    "Transaction at maximum credit card limit"⟩,
   ⟨"odd_cent_patterns", 0.1, fun d => hasOddCentPatterns d.amount,
    "Odd cent amounts (.00, .01, .99 patterns)"⟩,
   ⟨"sequential_amount_testing", 0.3, hasSequentialAmountTesting,
    "Sequential amount testing patterns detected"⟩]

/-- The rule-evaluation loop of `analyzeRisk`: collect the names of the
triggered rules, in rule order, and the sum of their weights. -/
def evalRules (rules : List FraudRule) (data : FraudAnalysisData) : List String × ℚ :=
  match rules with
  | [] => ([], 0)
  | r :: rest =>
    let tail := evalRules rest data
    if r.condition data then (r.name :: tail.1, r.weight + tail.2) else tail

/-- `analyzeRisk` of `fraud-detector.service.ts`: evaluate every default
rule, cap the accumulated score at 1, compare with the threshold. -/
def analyzeRisk (cfg : FraudConfigBase) (data : FraudAnalysisData) : FraudAnalysisResult :=
  let result := evalRules (getDefaultRules cfg) data
  let riskScore := min result.2 1
  { riskScore := riskScore
    triggeredRules := result.1
    explanation := ""
    isHighRisk := decide (cfg.threshold ≤ riskScore) }

/-- Rounding to two decimal places (`+(x.toFixed(2))` of the
`llm.service.ts` variant of `analyzeRisk`), for the nonnegative values
produced by the engine. -/
def roundTo2 (q : ℚ) : ℚ := (jsRound (q * 100) : ℚ) / 100

/-- The default configuration from `env.config.ts` (threshold 0.5,
large-amount threshold 5000, suspicious suffixes). -/
def defaultConfig : FraudConfigBase :=
  { threshold := 0.5
    largeAmountThreshold := 5000
    suspiciousDomains := [".ru", "test.com", "example.com"] }

/-! ## Routing (`payment-processor.service.ts`) -/

/-- `determineRouting`: the risk-band decision table. -/
def determineRouting (result : FraudAnalysisResult) : String × String :=
  if result.isHighRisk then ("blocked", "blocked")
  else if result.riskScore < 0.2 then ("stripe", "success")
  else if result.riskScore < 0.4 then ("paypal", "success")
  else ("stripe", "success")

/-- Modelled from the spec: the routing decision table of §4.3, written
from the spec's four bullet points, for comparison with
`determineRouting`. -/
def routingSpecTable (result : FraudAnalysisResult) : String × String :=
  if result.isHighRisk then ("blocked", "blocked")
  else if result.riskScore < 0.2 then ("stripe", "success")
  else if result.riskScore < 0.4 then ("paypal", "success")
  else ("stripe", "success")

/-! ## Transaction ledger (`transaction-logger.service.ts`) -/

/-- The `metadata` object attached by `processPayment`. -/
structure TransactionMetadata where
  triggeredRules : List String
  isHighRisk : Bool
deriving DecidableEq

/-- `Transaction` of `src/types/api.ts`; `Date` as epoch milliseconds. -/
structure Transaction where
  id : String
  timestamp : ℤ
  amount : ℚ
  currency : String
  email : String
  source : String
  provider : String
  status : String
  riskScore : ℚ
  explanation : String
  metadata : Option TransactionMetadata
deriving DecidableEq

/-- The ledger state: the private `transactions` array, in insertion
order. -/
abbrev LedgerState := List Transaction

/-- `addTransaction`: push to the end. -/
def addTransaction (st : LedgerState) (t : Transaction) : LedgerState := st ++ [t]

/-- `getTransaction`: first entry with the given id. -/
def getTransaction (st : LedgerState) (id : String) : Option Transaction :=
  st.find? fun t => t.id == id

/-- `getAllTransactions`: a copy of the array (the same sequence). -/
def getAllTransactions (st : LedgerState) : List Transaction := st

/-- `getTransactionsByEmail`: exact case-insensitive equality. -/
def getTransactionsByEmail (st : LedgerState) (email : String) : List Transaction :=
  st.filter fun t => jsToLower t.email == jsToLower email

/-- `getTransactionsByStatus`: exact equality. -/
def getTransactionsByStatus (st : LedgerState) (status : String) : List Transaction :=
  st.filter fun t => t.status == status

/-- `getTransactionsByDateRange`: inclusive bounds, no swapping. -/
def getTransactionsByDateRange (st : LedgerState) (startDate endDate : ℤ) : List Transaction :=
  st.filter fun t => decide (startDate ≤ t.timestamp) && decide (t.timestamp ≤ endDate)

/-- `clearTransactions`. -/
def clearTransactions (_st : LedgerState) : LedgerState := []

/-- `TransactionQuery` of `src/types/transaction.ts`: every field
optional. -/
structure TransactionQuery where
  email : Option String := none
  status : Option String := none
  provider : Option String := none
  startDate : Option ℤ := none
  endDate : Option ℤ := none
  sortBy : Option String := none
  sortOrder : Option String := none
  page : Option ℕ := none
  limit : Option ℕ := none

/-- JS truthiness of an optional string (`undefined` and `""` are
falsy). -/
def truthyStr : Option String → Bool
  | none => false
  | some s => s != ""

/-- JS truthiness of an optional number (`undefined` and `0` are
falsy). -/
def truthyNat : Option ℕ → Bool
  | none => false
  | some n => n != 0

/-- The five filter steps of `queryTransactions`, in source order. -/
def applyQueryFilters (q : TransactionQuery) (st : List Transaction) : List Transaction :=
  let l1 := if truthyStr q.email then
      st.filter fun t => jsIncludes (jsToLower t.email) (jsToLower (q.email.getD ""))
    else st
  let l2 := if truthyStr q.status then
      l1.filter (fun t => t.status == q.status.getD "") else l1
  let l3 := if truthyStr q.provider then
      l2.filter (fun t => t.provider == q.provider.getD "") else l2
  let l4 := match q.startDate with
    | some s => l3.filter fun t => decide (s ≤ t.timestamp)
    | none => l3
  match q.endDate with
  | some e => l4.filter fun t => decide (t.timestamp ≤ e)
  | none => l4

/-- The comparator of `queryTransactions` as a boolean
"comparator(a,b) ≤ 0" relation: ascending in the selected key, flipped
when `sortOrder === 'desc'`; the switch's `default` falls back to the
timestamp. -/
def sortLe (sortBy : String) (desc : Bool) (a b : Transaction) : Bool :=
  match sortBy with
  | "amount" => if desc then decide (b.amount ≤ a.amount) else decide (a.amount ≤ b.amount)
  | "riskScore" => if desc then decide (b.riskScore ≤ a.riskScore) else decide (a.riskScore ≤ b.riskScore)
  | "email" => if desc then !decide (a.email < b.email) else !decide (b.email < a.email)
  | _ => if desc then decide (b.timestamp ≤ a.timestamp) else decide (a.timestamp ≤ b.timestamp)

/-- The sort step of `queryTransactions`: the chosen comparator when
`sortBy` is truthy, otherwise timestamp descending (JS `Array.sort` is
stable, modelled with a stable merge sort). -/
def sortQueryResult (q : TransactionQuery) (l : List Transaction) : List Transaction :=
  if truthyStr q.sortBy then
    l.mergeSort (sortLe (q.sortBy.getD "") (q.sortOrder == some "desc"))
  else
    l.mergeSort fun a b => decide (b.timestamp ≤ a.timestamp)

/-- The filter-then-sort prefix of `queryTransactions`, before
pagination. -/
def filteredSorted (st : LedgerState) (q : TransactionQuery) : List Transaction :=
  sortQueryResult q (applyQueryFilters q st)

/-- `queryTransactions`: filter, sort, then slice
`[(page-1)*limit, page*limit)` when both `page` and `limit` are truthy. -/
def queryTransactions (st : LedgerState) (q : TransactionQuery) : List Transaction :=
  let base := filteredSorted st q
  if truthyNat q.page && truthyNat q.limit then
    (base.drop ((q.page.getD 0 - 1) * q.limit.getD 0)).take (q.limit.getD 0)
  else base

/-- The argument record of `createTransaction`. -/
structure CreateTransactionData where
  amount : ℚ
  currency : String
  email : String
  source : String
  provider : String
  status : String
  riskScore : ℚ
  explanation : String
  metadata : Option TransactionMetadata
deriving DecidableEq

/-- `createTransaction`: spread the fields and attach a fresh id
(`uuidv4()`) and the current time (`new Date()`), both passed in here as
the two sources of nondeterminism; the store is not touched. -/
def createTransaction (data : CreateTransactionData) (freshId : String) (now : ℤ) : Transaction :=
  { id := freshId
    timestamp := now
    amount := data.amount
    currency := data.currency
    email := data.email
    source := data.source
    provider := data.provider
    status := data.status
    riskScore := data.riskScore
    explanation := data.explanation
    metadata := data.metadata }

/-! ## Amount-context enrichment (`payment-processor.service.ts`) -/

/-- `calculateAverage`: arithmetic mean, 0 on the empty list. -/
def calculateAverage (amounts : List ℚ) : ℚ :=
  if amounts.length = 0 then 0 else amounts.sum / amounts.length

/-- `calculateStandardDeviation`: square root of the population
variance around the given average, 0 on the empty list.  `Math.sqrt`
is modelled as the real square root. -/
noncomputable def calculateStandardDeviation (amounts : List ℚ) (average : ℚ) : ℝ :=
  if amounts.length = 0 then 0
  else Real.sqrt ((amounts.map fun a => ((a : ℝ) - (average : ℚ)) ^ 2).sum / amounts.length)

/-- `getMerchantCategory`: static default. -/
def getMerchantCategory : String := "retail"

/-- `getCreditCardLimit`: static default. -/
def getCreditCardLimit : Option ℚ := some 5000

/-- The `thresholds` table of `getReportingThreshold`. -/
def reportingThresholds : List (String × ℚ) :=
  [("USD", 10000), ("EUR", 10000), ("GBP", 10000), ("CAD", 10000), ("AUD", 10000)]

/-- `getReportingThreshold`: table lookup with the JS `|| 10000`
fallback (also taken when the table stores a falsy 0). -/
def getReportingThreshold (currency : String) : ℚ :=
  match reportingThresholds.lookup currency with
  | some t => if t = 0 then 10000 else t
  | none => 10000

/-- The record built by `enrichTransactionAmountData` (its
`userStandardDeviation` lives in ℝ because of the square root). -/
structure EnrichedAmountData where
  amount : ℚ
  currency : String
  previousAmounts : List ℚ
  userAverageAmount : ℚ
  userStandardDeviation : ℝ
  merchantCategory : String
  isFirstTimeTransaction : Bool
  creditCardLimit : ℚ
  reportingThreshold : ℚ

/-- `enrichTransactionAmountData`: pull the user's history from the
ledger, compute mean and standard deviation, and fill the static
defaults (`creditCardLimit || 0` keeps the default 5000). -/
noncomputable def enrichTransactionAmountData (st : LedgerState) (email : String)
    (amount : ℚ) (currency : String) : EnrichedAmountData :=
  let previousAmounts := (getTransactionsByEmail st email).map (·.amount)
  let userAverageAmount := calculateAverage previousAmounts
  { amount := amount
    currency := currency
    previousAmounts := previousAmounts
    userAverageAmount := userAverageAmount
    userStandardDeviation := calculateStandardDeviation previousAmounts userAverageAmount
    merchantCategory := getMerchantCategory
    isFirstTimeTransaction := previousAmounts.length == 0
    creditCardLimit := match getCreditCardLimit with
      | some l => if l = 0 then 0 else l
      | none => 0
    reportingThreshold := getReportingThreshold currency }

/-- Modelled from the spec: the arithmetic mean of a history, 0 when
empty (§4.2). -/
def specMean (l : List ℚ) : ℚ := if l = [] then 0 else l.sum / l.length

/-- Modelled from the spec: the population variance of a history, 0
when empty (§4.2: the standard deviation is its square root). -/
noncomputable def specPopulationVariance (l : List ℚ) : ℝ :=
  if l = [] then 0
  else ((l.map fun a => ((a : ℝ) - (specMean l : ℚ)) ^ 2).sum) / l.length

/-! ## Concrete sample inputs used by counterexamples and witnesses -/

/-- The input refuting C4: amount 9950, no amount context. -/
def c4Data : FraudAnalysisData :=
  { amount := 9950
    currency := "USD"
    email := "user@trusted.com"
    domain := "trusted.com"
    timestamp := 0
    transactionAmount := none }

/-- The amount context refuting C5: history with exactly one entry,
5 < 10, current amount 200 > 100. -/
def c5Ctx : TransactionAmountData :=
  { amount := 200
    currency := "USD"
    previousAmounts := [5]
    userAverageAmount := 5
    userStandardDeviation := 0
    merchantCategory := "unknown"
    isFirstTimeTransaction := false
    creditCardLimit := none
    reportingThreshold := 10000 }

/-- The input refuting C5. -/
def c5Data : FraudAnalysisData :=
  { amount := 200
    currency := "USD"
    email := "user@trusted.com"
    domain := "trusted.com"
    timestamp := 0
    transactionAmount := some c5Ctx }

/-- A two-entry history variant of `c5Ctx`, where the rule does
trigger. -/
def c5TwoCtx : TransactionAmountData :=
  { amount := 200
    currency := "USD"
    previousAmounts := [5, 3]
    userAverageAmount := 4
    userStandardDeviation := 1
    merchantCategory := "unknown"
    isFirstTimeTransaction := false
    creditCardLimit := none
    reportingThreshold := 10000 }

/-- The input for the amended C5 witness. -/
def c5TwoData : FraudAnalysisData :=
  { amount := 200
    currency := "USD"
    email := "user@trusted.com"
    domain := "trusted.com"
    timestamp := 0
    transactionAmount := some c5TwoCtx }

/-- A benign sample input (amount 50, trusted domain, no history). -/
def sampleData : FraudAnalysisData :=
  { amount := 50
    currency := "USD"
    email := "user@trusted.com"
    domain := "trusted.com"
    timestamp := 0
    transactionAmount := none }

/-- A concrete ledger entry used by witnesses. -/
def sampleTx : Transaction :=
  { id := "tx-1"
    timestamp := 10
    amount := 100
    currency := "USD"
    email := "user@trusted.com"
    source := "web"
    provider := "stripe"
    status := "success"
    riskScore := 0.1
    explanation := ""
    metadata := none }

/-- Concrete creation fields used by the round-trip witness. -/
def sampleCreateData : CreateTransactionData :=
  { amount := 100
    currency := "USD"
    email := "user@trusted.com"
    source := "web"
    provider := "stripe"
    status := "success"
    riskScore := 0.1
    explanation := "ok"
    metadata := some ⟨["large_amount"], false⟩ }

/-- A concrete paginated query (page 5, limit 2, no other fields). -/
def c7Query : TransactionQuery := { page := some 5, limit := some 2 }

/-! ## Engine lemmas -/

theorem evalRules_fst (rules : List FraudRule) (d : FraudAnalysisData) :
    (evalRules rules d).1 = (rules.filter fun r => r.condition d).map (·.name) := by
  induction rules with
  | nil => rfl
  | cons r rest ih =>
    by_cases h : r.condition d = true <;>
      simp [evalRules, List.filter_cons, h, ih]

theorem evalRules_snd (rules : List FraudRule) (d : FraudAnalysisData) :
    (evalRules rules d).2 = ((rules.filter fun r => r.condition d).map (·.weight)).sum := by
  induction rules with
  | nil => rfl
  | cons r rest ih =>
    by_cases h : r.condition d = true <;>
      simp [evalRules, List.filter_cons, h, ih]

theorem mem_evalRules_fst (rules : List FraudRule) (d : FraudAnalysisData) (s : String) :
    s ∈ (evalRules rules d).1 ↔ ∃ r ∈ rules, r.name = s ∧ r.condition d = true := by
  rw [evalRules_fst]
  simp only [List.mem_map, List.mem_filter]
  constructor
  · rintro ⟨r, ⟨hr, hc⟩, hn⟩
    exact ⟨r, hr, hn, hc⟩
  · rintro ⟨r, hr, hn, hc⟩
    exact ⟨r, ⟨hr, hc⟩, hn⟩

theorem evalRules_snd_nonneg (rules : List FraudRule) (d : FraudAnalysisData)
    (h : ∀ r ∈ rules, 0 ≤ r.weight) : 0 ≤ (evalRules rules d).2 := by
  induction rules with
  | nil => simp [evalRules]
  | cons r rest ih =>
    have hr := h r (by simp)
    have hrest : ∀ x ∈ rest, 0 ≤ x.weight := fun x hx => h x (by simp [hx])
    by_cases hc : r.condition d = true
    · simp only [evalRules, hc, if_true]
      exact add_nonneg hr (ih hrest)
    · simp only [evalRules, hc, if_false]
      exact ih hrest

theorem evalRules_snd_div20 (rules : List FraudRule) (d : FraudAnalysisData)
    (h : ∀ r ∈ rules, ∃ k : ℤ, r.weight = (k : ℚ) / 20) :
    ∃ k : ℤ, (evalRules rules d).2 = (k : ℚ) / 20 := by
  induction rules with
  | nil => exact ⟨0, by simp [evalRules]⟩
  | cons r rest ih =>
    obtain ⟨k₁, hk₁⟩ := h r (by simp)
    obtain ⟨k₂, hk₂⟩ := ih fun x hx => h x (by simp [hx])
    by_cases hc : r.condition d = true
    · refine ⟨k₁ + k₂, ?_⟩
      simp only [evalRules, hc, if_true]
      rw [hk₁, hk₂]
      push_cast
      ring
    · exact ⟨k₂, by simp only [evalRules, hc, if_false]; exact hk₂⟩

theorem defaultRules_weight_nonneg (cfg : FraudConfigBase) :
    ∀ r ∈ getDefaultRules cfg, 0 ≤ r.weight := by
  intro r hr
  fin_cases hr <;> norm_num

theorem defaultRules_weight_div20 (cfg : FraudConfigBase) :
    ∀ r ∈ getDefaultRules cfg, ∃ k : ℤ, r.weight = (k : ℚ) / 20 := by
  intro r hr
  fin_cases hr
  · exact ⟨6, by norm_num⟩
  · exact ⟨8, by norm_num⟩
  · exact ⟨4, by norm_num⟩
  · exact ⟨2, by norm_num⟩
  · exact ⟨4, by norm_num⟩
  · exact ⟨3, by norm_num⟩
  · exact ⟨5, by norm_num⟩
  · exact ⟨6, by norm_num⟩
  · exact ⟨4, by norm_num⟩
  · exact ⟨7, by norm_num⟩
  · exact ⟨5, by norm_num⟩
  · exact ⟨4, by norm_num⟩
  · exact ⟨8, by norm_num⟩
  · exact ⟨2, by norm_num⟩
  · exact ⟨6, by norm_num⟩

theorem roundTo2_int_div20 (m : ℤ) : roundTo2 ((m : ℚ) / 20) = (m : ℚ) / 20 := by
  unfold roundTo2 jsRound
  have h5 : ((m : ℚ) / 20) * 100 = ((5 * m : ℤ) : ℚ) := by push_cast; ring
  rw [h5]
  have : ⌊((5 * m : ℤ) : ℚ) + 1 / 2⌋ = 5 * m := by
    rw [add_comm, Int.floor_add_int]
    norm_num
  rw [this]
  push_cast
  ring

theorem min_int_div20 (k : ℤ) :
    min ((k : ℚ) / 20) 1 = ((min k 20 : ℤ) : ℚ) / 20 := by
  rcases le_total k 20 with h | h
  · have hle : (k : ℚ) / 20 ≤ 1 := by
      rw [div_le_one (by norm_num : (0 : ℚ) < 20)]
      exact_mod_cast h
    rw [min_eq_left hle, min_eq_left h]
  · have h1 : (1 : ℚ) ≤ (k : ℚ) / 20 := by
      rw [le_div_iff₀ (by norm_num : (0 : ℚ) < 20)]
      have hc : (20 : ℚ) ≤ (k : ℚ) := by exact_mod_cast h
      linarith
    rw [min_eq_right h1, min_eq_right h]
    norm_num

/-! ## Claim theorems: risk engine -/

/-- C1: for every configuration and every syntactically valid input,
`analyzeRisk` returns a risk score in [0,1], and flags high risk exactly
when the score reaches the configured threshold. -/
theorem analyzeRisk_score_bounds_and_highRisk (cfg : FraudConfigBase) (d : FraudAnalysisData) :
    0 ≤ (analyzeRisk cfg d).riskScore ∧ (analyzeRisk cfg d).riskScore ≤ 1 ∧
      ((analyzeRisk cfg d).isHighRisk = true ↔ cfg.threshold ≤ (analyzeRisk cfg d).riskScore) := by
  have hnn : 0 ≤ (evalRules (getDefaultRules cfg) d).2 :=
    evalRules_snd_nonneg _ _ (defaultRules_weight_nonneg cfg)
  refine ⟨?_, ?_, ?_⟩
  · exact le_min hnn zero_le_one
  · exact min_le_right _ _
  · simp [analyzeRisk]

/-- C2: the routing function agrees with the spec's decision table and
never returns a pair other than (blocked, blocked), (stripe, success)
or (paypal, success). -/
theorem determineRouting_matches_spec (result : FraudAnalysisResult) :
    determineRouting result = routingSpecTable result ∧
      (determineRouting result = ("blocked", "blocked") ∨
        determineRouting result = ("stripe", "success") ∨
        determineRouting result = ("paypal", "success")) := by
  refine ⟨rfl, ?_⟩
  unfold determineRouting
  split
  · exact Or.inl rfl
  · split
    · exact Or.inr (Or.inl rfl)
    · split
      · exact Or.inr (Or.inr rfl)
      · exact Or.inr (Or.inl rfl)

/-- C3: the returned risk score equals the sum of the weights of the
triggered rules, capped at 1 and rounded to two decimal places (the
rounding is the identity here because every default weight is a
multiple of 0.05). -/
theorem analyzeRisk_score_eq_rounded_sum (cfg : FraudConfigBase) (d : FraudAnalysisData) :
    (analyzeRisk cfg d).riskScore =
      roundTo2 (min ((((getDefaultRules cfg).filter fun r => r.condition d).map (·.weight)).sum) 1) := by
  obtain ⟨k, hk⟩ := evalRules_snd_div20 (getDefaultRules cfg) d (defaultRules_weight_div20 cfg)
  have hsum : (((getDefaultRules cfg).filter fun r => r.condition d).map (·.weight)).sum
      = (k : ℚ) / 20 := by rw [← evalRules_snd]; exact hk
  have hscore : (analyzeRisk cfg d).riskScore = min ((k : ℚ) / 20) 1 := by
    simp only [analyzeRisk, hk]
  rw [hscore, hsum, min_int_div20, roundTo2_int_div20]

theorem mem_triggered (cfg : FraudConfigBase) (d : FraudAnalysisData) (s : String) :
    s ∈ (analyzeRisk cfg d).triggeredRules ↔
      ∃ r ∈ getDefaultRules cfg, r.name = s ∧ r.condition d = true := by
  have h : (analyzeRisk cfg d).triggeredRules = (evalRules (getDefaultRules cfg) d).1 := rfl
  rw [h, mem_evalRules_fst]

theorem hasGradualAmountIncrease_none (d : FraudAnalysisData)
    (h : d.transactionAmount = none) : hasGradualAmountIncrease d = false := by
  simp [hasGradualAmountIncrease, h]

theorem isMicroTransactionFollowedByLarge_none (d : FraudAnalysisData)
    (h : d.transactionAmount = none) : isMicroTransactionFollowedByLarge d = false := by
  simp [isMicroTransactionFollowedByLarge, h]

theorem exceedsHistoricalAverage_none (d : FraudAnalysisData)
    (h : d.transactionAmount = none) : exceedsHistoricalAverage d = false := by
  simp [exceedsHistoricalAverage, h]

theorem isFirstTimeHighValueTransaction_none (d : FraudAnalysisData)
    (h : d.transactionAmount = none) : isFirstTimeHighValueTransaction d = false := by
  simp [isFirstTimeHighValueTransaction, h]

theorem isInconsistentWithMerchantCategory_none (d : FraudAnalysisData)
    (h : d.transactionAmount = none) : isInconsistentWithMerchantCategory d = false := by
  simp [isInconsistentWithMerchantCategory, h]

theorem isMaximumCreditLimitTransaction_none (d : FraudAnalysisData)
    (h : d.transactionAmount = none) : isMaximumCreditLimitTransaction d = false := by
  simp [isMaximumCreditLimitTransaction, h]

theorem hasSequentialAmountTesting_none (d : FraudAnalysisData)
    (h : d.transactionAmount = none) : hasSequentialAmountTesting d = false := by
  simp [hasSequentialAmountTesting, h]

theorem isUnderReportingThreshold_none (d : FraudAnalysisData)
    (h : d.transactionAmount = none) :
    isUnderReportingThreshold d = true ↔ (9900 ≤ d.amount ∧ d.amount < 10000) := by
  simp only [isUnderReportingThreshold, h, Bool.and_eq_true, decide_eq_true_eq]
  norm_num

/-- C4 counterexample: with `amountContext` absent,
`under_reporting_threshold` (one of the listed amount-context rules)
still triggers at amount 9950, because the predicate falls back to the
default reporting threshold 10000. -/
theorem underReporting_triggers_without_context :
    c4Data.transactionAmount = none ∧
      "under_reporting_threshold" ∈ (analyzeRisk defaultConfig c4Data).triggeredRules := by
  refine ⟨rfl, ?_⟩
  rw [mem_triggered]
  refine ⟨⟨"under_reporting_threshold", 0.3, isUnderReportingThreshold,
    "Amount just under reporting threshold (suspicious)"⟩, ?_, rfl, ?_⟩
  · simp [getDefaultRules]
  · rw [isUnderReportingThreshold_none c4Data rfl]
    constructor <;> norm_num [c4Data]

/-- C4 amended: with `amountContext` absent, the amount-context rules
other than `under_reporting_threshold` never trigger, while
`under_reporting_threshold` falls back to the default threshold 10000
and triggers exactly when 9900 ≤ amount < 10000. -/
theorem amountContextRules_absent (cfg : FraudConfigBase) (d : FraudAnalysisData)
    (h : d.transactionAmount = none) :
    ("gradual_amount_increase" ∉ (analyzeRisk cfg d).triggeredRules ∧
      "micro_to_large_transaction" ∉ (analyzeRisk cfg d).triggeredRules ∧
      "exceeds_historical_average" ∉ (analyzeRisk cfg d).triggeredRules ∧
      "first_time_high_value" ∉ (analyzeRisk cfg d).triggeredRules ∧
      "inconsistent_merchant_category" ∉ (analyzeRisk cfg d).triggeredRules ∧
      "maximum_credit_limit" ∉ (analyzeRisk cfg d).triggeredRules ∧
      "sequential_amount_testing" ∉ (analyzeRisk cfg d).triggeredRules) ∧
      ("under_reporting_threshold" ∈ (analyzeRisk cfg d).triggeredRules ↔
        (9900 ≤ d.amount ∧ d.amount < 10000)) := by
  refine ⟨⟨?_, ?_, ?_, ?_, ?_, ?_, ?_⟩, ?_⟩ <;>
    rw [mem_triggered] <;>
    simp [getDefaultRules, hasGradualAmountIncrease_none d h,
      isMicroTransactionFollowedByLarge_none d h, exceedsHistoricalAverage_none d h,
      isFirstTimeHighValueTransaction_none d h, isInconsistentWithMerchantCategory_none d h,
      isMaximumCreditLimitTransaction_none d h, hasSequentialAmountTesting_none d h,
      isUnderReportingThreshold_none d h]

/-- C4 amended, applied at the concrete refuting input. -/
theorem amountContextRules_absent_witness :
    c4Data.transactionAmount = none ∧
      (("gradual_amount_increase" ∉ (analyzeRisk defaultConfig c4Data).triggeredRules ∧
        "micro_to_large_transaction" ∉ (analyzeRisk defaultConfig c4Data).triggeredRules ∧
        "exceeds_historical_average" ∉ (analyzeRisk defaultConfig c4Data).triggeredRules ∧
        "first_time_high_value" ∉ (analyzeRisk defaultConfig c4Data).triggeredRules ∧
        "inconsistent_merchant_category" ∉ (analyzeRisk defaultConfig c4Data).triggeredRules ∧
        "maximum_credit_limit" ∉ (analyzeRisk defaultConfig c4Data).triggeredRules ∧
        "sequential_amount_testing" ∉ (analyzeRisk defaultConfig c4Data).triggeredRules) ∧
        ("under_reporting_threshold" ∈ (analyzeRisk defaultConfig c4Data).triggeredRules ↔
          (9900 ≤ c4Data.amount ∧ c4Data.amount < 10000))) :=
  ⟨rfl, amountContextRules_absent defaultConfig c4Data rfl⟩

theorem isMicroTransactionFollowedByLarge_iff (d : FraudAnalysisData)
    (ctx : TransactionAmountData) (h : d.transactionAmount = some ctx) :
    isMicroTransactionFollowedByLarge d = true ↔
      (2 ≤ ctx.previousAmounts.length ∧
        ∃ lastAmount, ctx.previousAmounts.getLast? = some lastAmount ∧
          lastAmount < 10 ∧ 100 < d.amount) := by
  simp only [isMicroTransactionFollowedByLarge, h]
  by_cases hl : ctx.previousAmounts.length < 2
  · rw [if_pos hl]
    simp only [Bool.false_eq_true, false_iff, not_and]
    intro h2
    omega
  · rw [if_neg hl]
    have h2 : 2 ≤ ctx.previousAmounts.length := by omega
    have hne : ctx.previousAmounts ≠ [] := by
      intro he
      rw [he] at h2
      simp at h2
    obtain ⟨lastAmount, hg⟩ := Option.ne_none_iff_exists'.mp
      (mt List.getLast?_eq_none_iff.mp hne)
    rw [hg]
    simp [h2, hg]

/-- C5 counterexample: the immediately-previous (single) history entry
is 5 < 10 and the current amount is 200 > 100, yet
`micro_to_large_transaction` does not trigger — the code requires at
least two history entries. -/
theorem microToLarge_single_entry_does_not_trigger :
    c5Ctx.previousAmounts.getLast? = some 5 ∧ (5 : ℚ) < 10 ∧ 100 < c5Data.amount ∧
      "micro_to_large_transaction" ∉ (analyzeRisk defaultConfig c5Data).triggeredRules := by
  refine ⟨rfl, by norm_num, by norm_num [c5Data], ?_⟩
  rw [mem_triggered]
  simp [getDefaultRules, isMicroTransactionFollowedByLarge, c5Data, c5Ctx]

/-- C5 amended: with `amountContext` present,
`micro_to_large_transaction` triggers iff the history has at least two
entries, its last entry is < 10, and the current amount is > 100 (a
single-entry history never triggers it). -/
theorem microToLarge_triggers_iff (cfg : FraudConfigBase) (d : FraudAnalysisData)
    (ctx : TransactionAmountData) (h : d.transactionAmount = some ctx) :
    "micro_to_large_transaction" ∈ (analyzeRisk cfg d).triggeredRules ↔
      (2 ≤ ctx.previousAmounts.length ∧
        ∃ lastAmount, ctx.previousAmounts.getLast? = some lastAmount ∧
          lastAmount < 10 ∧ 100 < d.amount) := by
  rw [mem_triggered, ← isMicroTransactionFollowedByLarge_iff d ctx h]
  simp [getDefaultRules]

/-- C5 amended, applied at a concrete input: history [5, 3], current
amount 200 triggers the rule. -/
theorem microToLarge_triggers_iff_witness :
    c5TwoData.transactionAmount = some c5TwoCtx ∧
      ("micro_to_large_transaction" ∈ (analyzeRisk defaultConfig c5TwoData).triggeredRules ↔
        (2 ≤ c5TwoCtx.previousAmounts.length ∧
          ∃ lastAmount, c5TwoCtx.previousAmounts.getLast? = some lastAmount ∧
            lastAmount < 10 ∧ 100 < c5TwoData.amount)) :=
  ⟨rfl, microToLarge_triggers_iff defaultConfig c5TwoData c5TwoCtx rfl⟩

/-- C10: with a fixed configuration, `analyzeRisk` over the canonical
rule set is deterministic — equal inputs give equal results. -/
theorem analyzeRisk_deterministic (cfg : FraudConfigBase) (d₁ d₂ : FraudAnalysisData)
    (h : d₁ = d₂) : analyzeRisk cfg d₁ = analyzeRisk cfg d₂ := by
  rw [h]

/-- C10 witness at a concrete input. -/
theorem analyzeRisk_deterministic_witness :
    sampleData = sampleData ∧
      analyzeRisk defaultConfig sampleData = analyzeRisk defaultConfig sampleData :=
  ⟨rfl, analyzeRisk_deterministic defaultConfig sampleData sampleData rfl⟩

/-! ## Claim theorems: transaction ledger -/

/-- C8: `getTransactionsByDateRange` returns exactly the stored entries
with `start ≤ timestamp ≤ end`, and an inverted range yields the empty
list (the bounds are not swapped). -/
theorem byDateRange_characterization (st : LedgerState) (s e : ℤ) :
    (∀ t, t ∈ getTransactionsByDateRange st s e ↔
      (t ∈ st ∧ s ≤ t.timestamp ∧ t.timestamp ≤ e)) ∧
      (e < s → getTransactionsByDateRange st s e = []) := by
  constructor
  · intro t
    simp [getTransactionsByDateRange, List.mem_filter]
  · intro h
    apply List.filter_eq_nil_iff.mpr
    intro t _
    simp only [Bool.and_eq_true, decide_eq_true_eq, not_and]
    intro hs
    omega

/-- C8 witness: an inverted range on a nonempty ledger is empty. -/
theorem byDateRange_characterization_witness :
    (3 : ℤ) < 5 ∧ getTransactionsByDateRange [sampleTx] 5 3 = [] :=
  ⟨by norm_num, (byDateRange_characterization [sampleTx] 5 3).2 (by norm_num)⟩

/-- C9: `createTransaction` attaches the fresh id and the current
timestamp to the given fields without touching the store, and after
appending, a lookup by the fresh id returns exactly the created
record. -/
theorem create_append_get_roundTrip (st : LedgerState) (data : CreateTransactionData)
    (freshId : String) (now : ℤ) (h : ∀ t ∈ st, t.id ≠ freshId) :
    (createTransaction data freshId now).id = freshId ∧
      (createTransaction data freshId now).timestamp = now ∧
      getTransaction (addTransaction st (createTransaction data freshId now)) freshId
        = some (createTransaction data freshId now) := by
  refine ⟨rfl, rfl, ?_⟩
  unfold getTransaction addTransaction
  induction st with
  | nil => simp [createTransaction]
  | cons t rest ih =>
    have ht : (t.id == freshId) = false := by
      simp only [beq_eq_false_iff_ne, ne_eq]
      exact h t (by simp)
    rw [List.cons_append, List.find?_cons_of_neg _ (by simp [ht])]
    exact ih fun x hx => h x (by simp [hx])

/-- C9 witness: round trip through a singleton ledger with a fresh id. -/
theorem create_append_get_roundTrip_witness :
    (∀ t ∈ [sampleTx], t.id ≠ "tx-2") ∧
      ((createTransaction sampleCreateData "tx-2" 42).id = "tx-2" ∧
        (createTransaction sampleCreateData "tx-2" 42).timestamp = 42 ∧
        getTransaction (addTransaction [sampleTx] (createTransaction sampleCreateData "tx-2" 42)) "tx-2"
          = some (createTransaction sampleCreateData "tx-2" 42)) :=
  ⟨by
    intro t ht
    simp only [List.mem_singleton] at ht
    subst ht
    decide,
   create_append_get_roundTrip [sampleTx] sampleCreateData "tx-2" 42 (by
    intro t ht
    simp only [List.mem_singleton] at ht
    subst ht
    decide)⟩

/-- C7: with a 1-based page and a positive limit both given,
`queryTransactions` returns the slice `[(page-1)*limit, page*limit)` of
the filtered and sorted sequence, and an out-of-range page degrades to
the empty list rather than an error. -/
theorem queryTransactions_pagination (st : LedgerState) (q : TransactionQuery) (p l : ℕ)
    (hp : q.page = some p) (hl : q.limit = some l) (hp1 : 1 ≤ p) (hl1 : 1 ≤ l) :
    queryTransactions st q = ((filteredSorted st q).drop ((p - 1) * l)).take l ∧
      ((filteredSorted st q).length ≤ (p - 1) * l → queryTransactions st q = []) := by
  have hp0 : truthyNat (some p) = true := by
    simp only [truthyNat, bne_iff_ne, ne_eq, decide_eq_true_eq]
    omega
  have hl0 : truthyNat (some l) = true := by
    simp only [truthyNat, bne_iff_ne, ne_eq, decide_eq_true_eq]
    omega
  have heq : queryTransactions st q = ((filteredSorted st q).drop ((p - 1) * l)).take l := by
    simp only [queryTransactions, hp, hl, hp0, hl0, Bool.and_self, if_true, Option.getD_some]
  refine ⟨heq, fun hlen => ?_⟩
  rw [heq, List.drop_eq_nil_of_le hlen, List.take_nil]

/-- C7 witness: page 5 of a one-element ledger is empty. -/
theorem queryTransactions_pagination_witness :
    c7Query.page = some 5 ∧ c7Query.limit = some 2 ∧
      queryTransactions [sampleTx] c7Query
        = ((filteredSorted [sampleTx] c7Query).drop ((5 - 1) * 2)).take 2 ∧
      ((filteredSorted [sampleTx] c7Query).length ≤ (5 - 1) * 2 →
        queryTransactions [sampleTx] c7Query = []) :=
  ⟨rfl, rfl,
    (queryTransactions_pagination [sampleTx] c7Query 5 2 rfl rfl (by norm_num) (by norm_num)).1,
    (queryTransactions_pagination [sampleTx] c7Query 5 2 rfl rfl (by norm_num) (by norm_num)).2⟩

/-! ## Claim theorems: amount-context enrichment -/

theorem calculateAverage_eq_specMean (l : List ℚ) : calculateAverage l = specMean l := by
  rcases eq_or_ne l [] with h | h
  · simp [calculateAverage, specMean, h]
  · rw [calculateAverage, specMean, if_neg h, if_neg (by simpa using h)]

theorem getReportingThreshold_always (currency : String) :
    getReportingThreshold currency = 10000 := by
  have hval : ∀ v, reportingThresholds.lookup currency = some v → v = 10000 := by
    intro v hv
    simp only [reportingThresholds, List.lookup] at hv
    repeat' split at hv
    all_goals simp_all
  unfold getReportingThreshold
  rcases hres : reportingThresholds.lookup currency with _ | v
  · rfl
  · rw [hval v hres]
    norm_num

/-- C6: the enrichment always produces the user's prior ledger amounts
as history, the arithmetic mean as average (0 when empty), the
population standard deviation (0 when empty, characterized as the
nonnegative square root of the population variance),
`isFirstTimeTransaction` exactly on an empty history, and the constant
reporting threshold 10000 whatever the currency. -/
theorem enrich_statistics (st : LedgerState) (email : String) (amount : ℚ) (currency : String) :
    (enrichTransactionAmountData st email amount currency).previousAmounts
        = (getTransactionsByEmail st email).map (·.amount) ∧
      (enrichTransactionAmountData st email amount currency).userAverageAmount
        = specMean ((getTransactionsByEmail st email).map (·.amount)) ∧
      0 ≤ (enrichTransactionAmountData st email amount currency).userStandardDeviation ∧
      (enrichTransactionAmountData st email amount currency).userStandardDeviation ^ 2
        = specPopulationVariance ((getTransactionsByEmail st email).map (·.amount)) ∧
      (enrichTransactionAmountData st email amount currency).isFirstTimeTransaction
        = ((getTransactionsByEmail st email).map (·.amount)).isEmpty ∧
      (enrichTransactionAmountData st email amount currency).reportingThreshold = 10000 := by
  set l : List ℚ := (getTransactionsByEmail st email).map (·.amount) with hl
  refine ⟨rfl, calculateAverage_eq_specMean l, ?_, ?_, ?_, getReportingThreshold_always currency⟩
  · show 0 ≤ calculateStandardDeviation l (calculateAverage l)
    unfold calculateStandardDeviation
    split
    · exact le_refl 0
    · exact Real.sqrt_nonneg _
  · show calculateStandardDeviation l (calculateAverage l) ^ 2 = specPopulationVariance l
    rcases eq_or_ne l [] with h | h
    · simp [calculateStandardDeviation, specPopulationVariance, h]
    · have hlen : l.length ≠ 0 := by simpa using h
      rw [calculateStandardDeviation, if_neg hlen, specPopulationVariance, if_neg h,
        calculateAverage_eq_specMean l]
      apply Real.sq_sqrt
      apply div_nonneg _ (by positivity)
      apply List.sum_nonneg
      intro x hx
      simp only [List.mem_map] at hx
      obtain ⟨a, _, rfl⟩ := hx
      positivity
  · show (l.length == 0) = l.isEmpty
    cases l <;> rfl

end PaymentProxy
